import Mathlib

/-!
Verification of the context-lookup fallback and prompt-budget truncation
logic of the disease-term translation batch scripts
(`translation_disaese.py` and `disaese_server.py`).

The control table is a list of records with an integer volume key `no`,
a string `sec` key (the spreadsheet's "section" column) and a nullable
content cell `disease_content` (`none` models a pandas NaN cell).
All definitions are transcribed from the Python source; Python's
`min(xs, key=f)` (first minimal element), `sorted(df[c].unique())`,
negative-index list slicing and `str.strip` are modelled explicitly.
-/

/-- One row of the control spreadsheet: `no` (volume), `section` column
(`sec` here, `section` being a Lean keyword) and the nullable
`disease_content` cell (`none` = NaN). -/
structure ControlRecord where
  no : Int
  sec : String
  disease_content : Option String
deriving DecidableEq, Repr

/-- Outcome of the context lookup for one task, before the content NaN
check: the chosen row, the fallback level (0 exact, 1 same volume,
2 nearest volume) and the (volume, section) actually used. -/
structure ResolutionResult where
  record : ControlRecord
  usedFallbackLevel : Nat
  actualVolumeUsed : Int
  actualSectionUsed : String
deriving DecidableEq, Repr

/-- One output row of the batch server: 卷號, 章節, 原始文本, 翻譯結果. -/
structure TranslationRecord where
  volume : Int
  sec : String
  originalText : String
  translatedText : String
deriving DecidableEq, Repr

/-- Python `min(acc :: l, key=f)`: the FIRST element attaining the minimal
key (the accumulator is replaced only on a strictly smaller key). -/
def pyMinBy (f : Int → Nat) (acc : Int) : List Int → Int
  | [] => acc
  | x :: xs => if f x < f acc then pyMinBy f x xs else pyMinBy f acc xs

/-- `sorted(control_df['no'].unique())`: the distinct volume numbers of the
control table in ascending order. -/
def pyVolumes (table : List ControlRecord) : List Int :=
  List.insertionSort (· ≤ ·) (table.map (fun r => r.no)).dedup

/-- The context lookup of `translation_disaese.py` lines 193-227 (equally
`disaese_server.py` lines 331-363 for a non-empty table): exact
(volume, section) match, else first row of the same volume, else first row
of the volume nearest to the requested one (`min` keyed by absolute
distance over the sorted distinct volumes), else failure. -/
def resolveContext (table : List ControlRecord) (volume : Int) (sec : String) :
    Option ResolutionResult :=
  match (table.filter fun t => t.no == volume && t.sec == sec).head? with
  | some r => some ⟨r, 0, volume, sec⟩
  | none =>
    match (table.filter fun t => t.no == volume).head? with
    | some r => some ⟨r, 1, volume, r.sec⟩
    | none =>
      match pyVolumes table with
      | [] => none
      | v :: vs =>
        let nearest := pyMinBy (fun x => (x - volume).natAbs) v vs
        match (table.filter fun t => t.no == nearest).head? with
        | some r => some ⟨r, 2, nearest, r.sec⟩
        | none => none

/-- Lookup followed by the `pd.isna(context_paragraph)` guard
(`translation_disaese.py` lines 229-232): a resolved row whose content
cell is NaN makes the task be skipped (`none`); otherwise the content is
handed on to the prompt budgeter. Note the guard only detects NaN, not
an empty string. -/
def resolveAndCheck (table : List ControlRecord) (volume : Int) (sec : String) :
    Option (ResolutionResult × String) :=
  match resolveContext table volume sec with
  | none => none
  | some res =>
    match res.record.disease_content with
    | none => none
    | some c => some (res, c)

/-- The same lookup as it appears in `disaese_server.py` lines 331-371,
where the guard `if available_volumes:` of the standalone script is
absent: on an empty control table `min([])` raises
`ValueError: min() arg is an empty sequence`, modelled as `Except.error`
(an uncaught Python exception aborting the per-file task loop). -/
def serverResolve (table : List ControlRecord) (volume : Int) (sec : String) :
    Except String (Option (ResolutionResult × String)) :=
  match (table.filter fun t => t.no == volume && t.sec == sec).head? with
  | some r =>
    match r.disease_content with
    | none => .ok none
    | some c => .ok (some (⟨r, 0, volume, sec⟩, c))
  | none =>
    match (table.filter fun t => t.no == volume).head? with
    | some r =>
      match r.disease_content with
      | none => .ok none
      | some c => .ok (some (⟨r, 1, volume, r.sec⟩, c))
    | none =>
      match pyVolumes table with
      | [] => .error "ValueError: min() arg is an empty sequence"
      | v :: vs =>
        let nearest := pyMinBy (fun x => (x - volume).natAbs) v vs
        match (table.filter fun t => t.no == nearest).head? with
        | some r =>
          match r.disease_content with
          | none => .ok none
          | some c => .ok (some (⟨r, 2, nearest, r.sec⟩, c))
        | none => .ok none

/-- Python list slicing `l[:n]` for an `int` bound `n`: a negative bound
counts from the end (`l[:-5]` keeps all but the last five elements). -/
def pySliceTo (l : List Nat) (n : Int) : List Nat :=
  if 0 ≤ n then l.take n.toNat else l.take ((l.length : Int) + n).toNat

/-- `truncate_context_if_needed` (`translation_disaese.py` lines 51-80,
`disaese_server.py` lines 157-184). The tokenizer is the external
collaborator, passed as `encode`/`decode`; `basePrompt term` is the prompt
template rendered with empty context and the real term. Note that when
`max_tokens - base_tokens` is negative the else branch still runs and the
slice bound is negative. -/
def truncate_context_if_needed (encode : String → List Nat) (decode : List Nat → String)
    (basePrompt : String → String) (maxTokens : Int)
    (context_paragraph term : String) : String :=
  let base_tokens : Int := (encode (basePrompt term)).length
  let available_tokens : Int := maxTokens - base_tokens
  let context_tokens : Int := (encode context_paragraph).length
  if context_tokens ≤ available_tokens then
    context_paragraph
  else
    decode (pySliceTo (encode context_paragraph) available_tokens)

/-- The whitespace characters removed by Python `str.strip()`. -/
def pyIsSpace (c : Char) : Bool :=
  c == ' ' || c == '\t' || c == '\n' || c == '\r' || c == '\x0b' || c == '\x0c'

/-- Python `s.startswith(p)`, character-wise. -/
def strStartsWith (s p : String) : Bool := p.data.isPrefixOf s.data

/-- The leading-character stripping of `disaese_server.py` lines 319-324:
`if term and str(term).startswith(...)` drops 治療 (two characters,
`term[2:]`) or else a single leading 治 (`term[1:]`); an empty string is
falsy so it is left alone. -/
def stripTerm (term : String) : String :=
  if term.data ≠ [] ∧ strStartsWith term "治療" = true then String.mk (term.data.drop 2)
  else if term.data ≠ [] ∧ strStartsWith term "治" = true then String.mk (term.data.drop 1)
  else term

/-- Python `str.strip()` (whitespace removed at both ends). -/
def pyStrip (s : String) : String :=
  String.mk (((s.data.dropWhile pyIsSpace).reverse.dropWhile pyIsSpace).reverse)

/-- One iteration of the per-task loop of
`DiseaseTranslationBatch._process_file_core_translation`
(`disaese_server.py` lines 314-389): strip the term, skip blank
term/section, look up and NaN-check the context, truncate it, render the
prompt template and call the generation service; `.ok none` is a skipped
task (`continue`), `.error` an uncaught exception. -/
def serverProcessTask (encode : String → List Nat) (decode : List Nat → String)
    (template : String → String → String) (maxTokens : Int)
    (generate : String → String) (table : List ControlRecord)
    (volume : Int) (sec term0 : String) :
    Except String (Option TranslationRecord) :=
  let term := stripTerm term0
  if (pyStrip term).data.isEmpty || (pyStrip sec).data.isEmpty then .ok none
  else
    match serverResolve table volume sec with
    | .error e => .error e
    | .ok none => .ok none
    | .ok (some (_res, context_paragraph)) =>
      let truncated := truncate_context_if_needed encode decode
        (fun t => template "" t) maxTokens context_paragraph term
      let full_prompt := template truncated term
      .ok (some ⟨volume, sec, term, generate full_prompt⟩)

/-- A concrete tokenizer for witnesses: one token per character. -/
def charEncode (s : String) : List Nat := s.data.map Char.toNat

/-- Inverse of `charEncode` on valid character codes. -/
def charDecode (l : List Nat) : String := String.mk (l.map Char.ofNat)

/-! ### Helper lemmas about the Python `min(xs, key=f)` model -/

theorem pyMinBy_mem (f : Int → Nat) (acc : Int) (l : List Int) :
    pyMinBy f acc l ∈ acc :: l := by
  induction l generalizing acc with
  | nil => simp [pyMinBy]
  | cons x xs ih =>
    rw [pyMinBy]
    by_cases h : f x < f acc
    · rw [if_pos h]
      have := ih x
      rcases List.mem_cons.mp this with h1 | h1
      · simp [h1]
      · simp [List.mem_cons, h1]
    · rw [if_neg h]
      have := ih acc
      rcases List.mem_cons.mp this with h1 | h1
      · simp [h1]
      · simp [List.mem_cons, h1]

theorem pyMinBy_le (f : Int → Nat) (acc : Int) (l : List Int) :
    ∀ y ∈ acc :: l, f (pyMinBy f acc l) ≤ f y := by
  induction l generalizing acc with
  | nil =>
    intro y hy
    rw [List.mem_singleton] at hy
    rw [pyMinBy, hy]
  | cons x xs ih =>
    intro y hy
    rw [pyMinBy]
    by_cases h : f x < f acc
    · rw [if_pos h]
      rcases List.mem_cons.mp hy with h1 | h1
      · rw [h1]
        exact le_of_lt (lt_of_le_of_lt (ih x x (List.mem_cons_self x xs)) h)
      · exact ih x y h1
    · rw [if_neg h]
      rcases List.mem_cons.mp hy with h1 | h1
      · rw [h1]; exact ih acc acc (List.mem_cons_self acc xs)
      · rcases List.mem_cons.mp h1 with h2 | h2
        · rw [h2]
          exact le_trans (ih acc acc (List.mem_cons_self acc xs)) (le_of_not_lt h)
        · exact ih acc y (List.mem_cons.mpr (Or.inr h2))

theorem pyMinBy_first (f : Int → Nat) (acc : Int) (l : List Int)
    (hs : (acc :: l).Sorted (· ≤ ·)) :
    ∀ y ∈ acc :: l, f y ≤ f (pyMinBy f acc l) → pyMinBy f acc l ≤ y := by
  induction l generalizing acc with
  | nil =>
    intro y hy _
    rw [List.mem_singleton] at hy
    rw [pyMinBy, hy]
  | cons x xs ih =>
    intro y hy hmin
    rw [pyMinBy] at hmin ⊢
    have hacc : ∀ b ∈ x :: xs, acc ≤ b := (List.sorted_cons.mp hs).1
    have hs' : (x :: xs).Sorted (· ≤ ·) := (List.sorted_cons.mp hs).2
    by_cases h : f x < f acc
    · rw [if_pos h] at hmin ⊢
      rcases List.mem_cons.mp hy with h1 | h1
      · exfalso
        have h2 : f (pyMinBy f x xs) ≤ f x := pyMinBy_le f x xs x (List.mem_cons_self x xs)
        rw [h1] at hmin
        exact absurd (lt_of_lt_of_le h (le_trans hmin h2)) (lt_irrefl (f x))
      · exact ih x hs' y h1 hmin
    · rw [if_neg h] at hmin ⊢
      have hs'' : (acc :: xs).Sorted (· ≤ ·) := List.sorted_cons.mpr
        ⟨fun b hb => hacc b (List.mem_cons.mpr (Or.inr hb)), (List.sorted_cons.mp hs').2⟩
      rcases List.mem_cons.mp hy with h1 | h1
      · rw [h1] at hmin ⊢
        exact ih acc hs'' acc (List.mem_cons_self acc xs) hmin
      · rcases List.mem_cons.mp h1 with h2 | h2
        · have h4 : f acc ≤ f (pyMinBy f acc xs) := by
            rw [h2] at hmin
            exact le_trans (le_of_not_lt h) hmin
          have h5 : pyMinBy f acc xs ≤ acc :=
            ih acc hs'' acc (List.mem_cons_self acc xs) h4
          rw [h2]
          exact le_trans h5 (hacc x (List.mem_cons_self x xs))
        · exact ih acc hs'' y (List.mem_cons.mpr (Or.inr h2)) hmin

/-! ### Helper lemmas about `pyVolumes` -/

theorem mem_pyVolumes (table : List ControlRecord) (v : Int) :
    v ∈ pyVolumes table ↔ v ∈ table.map (fun r => r.no) := by
  unfold pyVolumes
  rw [List.mem_insertionSort, List.mem_dedup]

theorem pyVolumes_sorted (table : List ControlRecord) :
    (pyVolumes table).Sorted (· ≤ ·) :=
  List.sorted_insertionSort _ _

theorem pyVolumes_ne_nil (table : List ControlRecord) (h : table ≠ []) :
    pyVolumes table ≠ [] := by
  intro hnil
  rcases List.exists_mem_of_ne_nil table h with ⟨r, hr⟩
  have : r.no ∈ pyVolumes table :=
    (mem_pyVolumes table r.no).mpr (List.mem_map_of_mem _ hr)
  rw [hnil] at this
  exact absurd this (List.not_mem_nil _)

theorem filter_no_head?_some (table : List ControlRecord) (v : Int)
    (h : v ∈ table.map (fun r => r.no)) :
    ∃ r, (table.filter fun t => t.no == v).head? = some r := by
  rcases List.mem_map.mp h with ⟨r, hr, hno⟩
  have hne : (table.filter fun t => t.no == v) ≠ [] := by
    intro hnil
    have := (List.filter_eq_nil_iff.mp hnil) r hr
    simp [hno] at this
  cases hfilter : (table.filter fun t => t.no == v) with
  | nil => exact absurd hfilter hne
  | cons a as => exact ⟨a, by simp⟩

/-! ### Claim theorems -/

/-- C1 (amended): for every task whose (volume, section) pair exactly
matches at least one control record, the resolver reports fallback
level 0 with the FIRST matching record in table order, and when that
first record's content cell is present the task proceeds with exactly
that content as `contextParagraph`. -/
theorem c1_first_exact_match (table : List ControlRecord) (volume : Int)
    (sec : String) (r : ControlRecord) (c : String)
    (hfirst : (table.filter fun t => t.no == volume && t.sec == sec).head? = some r)
    (hcontent : r.disease_content = some c) :
    resolveAndCheck table volume sec = some (⟨r, 0, volume, sec⟩, c) := by
  unfold resolveAndCheck resolveContext
  rw [hfirst]
  simp [hcontent]

theorem c1_first_exact_match_witness :
    resolveAndCheck [⟨1, "a", some "foo"⟩] 1 "a" =
      some (⟨⟨1, "a", some "foo"⟩, 0, 1, "a"⟩, "foo") :=
  c1_first_exact_match [⟨1, "a", some "foo"⟩] 1 "a" ⟨1, "a", some "foo"⟩ "foo"
    (by decide) (by decide)

/-- C1 counterexample: the table holds two records matching (1, "a"), the
first with a NaN content cell, the second with non-empty content "foo".
The claim asserts level 0 with `contextParagraph = "foo"` (the first
MATCHING record WITH NON-EMPTY CONTENT); the code instead inspects only
the first matching record, finds NaN and skips the task entirely. -/
theorem c1_counterexample :
    (∃ r ∈ [ControlRecord.mk 1 "a" none, ControlRecord.mk 1 "a" (some "foo")],
        r.no = 1 ∧ r.sec = "a" ∧ r.disease_content ≠ none ∧ r.disease_content ≠ some "") ∧
    resolveAndCheck [ControlRecord.mk 1 "a" none, ControlRecord.mk 1 "a" (some "foo")]
      1 "a" = none := by
  decide

/-- C2 (amended): for every task whose volume has records in the control
table but none with the requested section, the resolver reports fallback
level 1, keeps `actualVolumeUsed` equal to the requested volume and sets
`actualSectionUsed` to the section of the FIRST same-volume record in
table order; the task proceeds exactly when that first record's content
cell is present, with that content. -/
theorem c2_first_same_volume (table : List ControlRecord) (volume : Int)
    (sec : String) (r : ControlRecord) (c : String)
    (hexact : (table.filter fun t => t.no == volume && t.sec == sec).head? = none)
    (hfirst : (table.filter fun t => t.no == volume).head? = some r)
    (hcontent : r.disease_content = some c) :
    resolveAndCheck table volume sec = some (⟨r, 1, volume, r.sec⟩, c) := by
  unfold resolveAndCheck resolveContext
  rw [hexact, hfirst]
  simp [hcontent]

theorem c2_first_same_volume_witness :
    resolveAndCheck [⟨1, "b", some "x"⟩] 1 "c" =
      some (⟨⟨1, "b", some "x"⟩, 1, 1, "b"⟩, "x") :=
  c2_first_same_volume [⟨1, "b", some "x"⟩] 1 "c" ⟨1, "b", some "x"⟩ "x"
    (by decide) (by decide) (by decide)

/-- C2 counterexample: volume 1 exists in the table but not with the
requested section "c", and a same-volume record (the second) has
non-empty content "x". The claim asserts level 1 is reported with the
resolution succeeding; the code takes the FIRST same-volume record,
whose content is NaN, and skips the task. -/
theorem c2_counterexample :
    (∃ r ∈ [ControlRecord.mk 1 "a" none, ControlRecord.mk 1 "b" (some "x")],
        r.no = 1 ∧ r.disease_content ≠ none ∧ r.disease_content ≠ some "") ∧
    (∀ r ∈ [ControlRecord.mk 1 "a" none, ControlRecord.mk 1 "b" (some "x")],
        ¬ (r.no = 1 ∧ r.sec = "c")) ∧
    resolveAndCheck [ControlRecord.mk 1 "a" none, ControlRecord.mk 1 "b" (some "x")]
      1 "c" = none := by
  decide

/-- C6: whenever the tokenized context fits the available budget
(`maxTokens` minus the base-prompt tokens), the budgeter returns the
input context unchanged. -/
theorem c6_context_fits (encode : String → List Nat) (decode : List Nat → String)
    (basePrompt : String → String) (maxTokens : Int) (ctx term : String)
    (h : ((encode ctx).length : Int) ≤ maxTokens - ((encode (basePrompt term)).length : Int)) :
    truncate_context_if_needed encode decode basePrompt maxTokens ctx term = ctx := by
  unfold truncate_context_if_needed
  dsimp only
  rw [if_pos h]

theorem c6_context_fits_witness :
    truncate_context_if_needed charEncode charDecode (fun t => t) 5 "ab" "x" = "ab" :=
  c6_context_fits charEncode charDecode (fun t => t) 5 "ab" "x" (by decide)

/-- C7 (amended): whatever fallback level was reached, if the resolved
record's content cell is NaN the task is skipped before the prompt
budgeter; if the content is present — including when it is the empty
string — the budgeter receives exactly that content. -/
theorem c7_nan_content_skipped (table : List ControlRecord) (volume : Int)
    (sec : String) (res : ResolutionResult)
    (h : resolveContext table volume sec = some res) :
    (res.record.disease_content = none → resolveAndCheck table volume sec = none) ∧
    (∀ c, res.record.disease_content = some c →
      resolveAndCheck table volume sec = some (res, c)) := by
  constructor
  · intro hc
    unfold resolveAndCheck
    rw [h]
    simp [hc]
  · intro c hc
    unfold resolveAndCheck
    rw [h]
    simp [hc]

theorem c7_nan_content_skipped_witness :
    resolveAndCheck [⟨1, "a", none⟩] 1 "a" = none :=
  (c7_nan_content_skipped [⟨1, "a", none⟩] 1 "a" ⟨⟨1, "a", none⟩, 0, 1, "a"⟩
    (by decide)).1 (by decide)

/-- C7 counterexample: a record whose content is the EMPTY STRING (not
NaN). The claim says a null-or-empty content makes the task be skipped
before the budgeter; the code's `pd.isna` guard does not detect the
empty string, so resolution succeeds and the budgeter receives `""`. -/
theorem c7_counterexample :
    resolveAndCheck [ControlRecord.mk 1 "a" (some "")] 1 "a" =
      some (⟨⟨1, "a", some ""⟩, 0, 1, "a"⟩, "") := by
  decide

/-- C8 (amended): on an empty control table resolution fails for every
task regardless of the requested keys. The standalone script skips the
task and continues with the next one; the batch-server variant instead
raises `ValueError` from `min()` over the empty volume list, aborting
the per-file task loop with an error (the enclosing batch run continues
with the next file). -/
theorem c8_empty_table (volume : Int) (sec : String) :
    resolveAndCheck ([] : List ControlRecord) volume sec = none ∧
    serverResolve ([] : List ControlRecord) volume sec =
      Except.error "ValueError: min() arg is an empty sequence" := by
  constructor <;> rfl

/-- C8 counterexample: in the batch-server variant an empty control table
does not lead to a per-task skip-with-warning (which the model renders
as `.ok none`) but to an uncaught `ValueError` that fails the whole
file's task loop. -/
theorem c8_counterexample :
    serverResolve ([] : List ControlRecord) 1 "a" =
      Except.error "ValueError: min() arg is an empty sequence" ∧
    serverResolve ([] : List ControlRecord) 1 "a" ≠ Except.ok none := by
  refine ⟨rfl, ?_⟩
  intro h
  exact Except.noConfusion h

/-- C5: when the tokenized context exceeds a non-negative available
budget, the budgeter keeps exactly the first `available` tokens of the
encoded context (tail truncation measured in tokens) and decodes them;
assuming the tokenizer is round-trip stable on the kept prefix (encode
after decode is the identity there), the returned context encodes to
exactly `available` tokens and `decode (encode result) = result`. -/
theorem c5_truncates_to_available (encode : String → List Nat)
    (decode : List Nat → String) (basePrompt : String → String)
    (maxTokens : Int) (ctx term : String)
    (havail : 0 ≤ maxTokens - ((encode (basePrompt term)).length : Int))
    (hover : maxTokens - ((encode (basePrompt term)).length : Int) < ((encode ctx).length : Int))
    (hrt : encode (decode ((encode ctx).take
        (maxTokens - ((encode (basePrompt term)).length : Int)).toNat)) =
      (encode ctx).take (maxTokens - ((encode (basePrompt term)).length : Int)).toNat) :
    truncate_context_if_needed encode decode basePrompt maxTokens ctx term =
      decode ((encode ctx).take
        (maxTokens - ((encode (basePrompt term)).length : Int)).toNat) ∧
    ((encode (truncate_context_if_needed encode decode basePrompt maxTokens ctx term)).length : Int) =
      maxTokens - ((encode (basePrompt term)).length : Int) ∧
    decode (encode (truncate_context_if_needed encode decode basePrompt maxTokens ctx term)) =
      truncate_context_if_needed encode decode basePrompt maxTokens ctx term := by
  have heq : truncate_context_if_needed encode decode basePrompt maxTokens ctx term =
      decode ((encode ctx).take
        (maxTokens - ((encode (basePrompt term)).length : Int)).toNat) := by
    unfold truncate_context_if_needed
    dsimp only
    rw [if_neg (not_le.mpr hover)]
    unfold pySliceTo
    rw [if_pos havail]
  refine ⟨heq, ?_, ?_⟩
  · rw [heq, hrt, List.length_take]
    omega
  · rw [heq, hrt]

theorem c5_truncates_to_available_witness :
    truncate_context_if_needed charEncode charDecode (fun t => t) 5 "hello" "abc" =
      charDecode ((charEncode "hello").take
        (5 - ((charEncode ((fun (t : String) => t) "abc")).length : Int)).toNat) ∧
    ((charEncode (truncate_context_if_needed charEncode charDecode (fun t => t) 5
        "hello" "abc")).length : Int) =
      5 - ((charEncode ((fun (t : String) => t) "abc")).length : Int) ∧
    charDecode (charEncode (truncate_context_if_needed charEncode charDecode
        (fun t => t) 5 "hello" "abc")) =
      truncate_context_if_needed charEncode charDecode (fun t => t) 5 "hello" "abc" :=
  c5_truncates_to_available charEncode charDecode (fun t => t) 5 "hello" "abc"
    (by decide) (by decide) (by decide)

/-- `nearest_volume = min(available_volumes, key=lambda x: abs(x - volume_no))`
of the source, defined when the control table is non-empty (the junk
value for the empty table is never used under that hypothesis). -/
def pyNearest (table : List ControlRecord) (volume : Int) : Int :=
  match pyVolumes table with
  | [] => volume
  | v :: vs => pyMinBy (fun x => (x - volume).natAbs) v vs

theorem pyNearest_mem (table : List ControlRecord) (volume : Int)
    (hne : table ≠ []) : pyNearest table volume ∈ table.map (fun r => r.no) := by
  unfold pyNearest
  cases hvols : pyVolumes table with
  | nil => exact absurd hvols (pyVolumes_ne_nil table hne)
  | cons v vs =>
    rw [← mem_pyVolumes, hvols]
    exact pyMinBy_mem _ v vs

theorem pyNearest_min (table : List ControlRecord) (volume : Int)
    (hne : table ≠ []) :
    ∀ w ∈ table.map (fun r => r.no),
      (pyNearest table volume - volume).natAbs ≤ (w - volume).natAbs := by
  intro w hw
  unfold pyNearest
  cases hvols : pyVolumes table with
  | nil => exact absurd hvols (pyVolumes_ne_nil table hne)
  | cons v vs =>
    have hw' : w ∈ v :: vs := by
      rw [← hvols]
      exact (mem_pyVolumes table w).mpr hw
    dsimp only
    exact pyMinBy_le (fun x => (x - volume).natAbs) v vs w hw'

theorem pyNearest_first (table : List ControlRecord) (volume : Int)
    (hne : table ≠ []) :
    ∀ w ∈ table.map (fun r => r.no),
      (w - volume).natAbs ≤ (pyNearest table volume - volume).natAbs →
      pyNearest table volume ≤ w := by
  intro w hw hless
  unfold pyNearest at hless ⊢
  cases hvols : pyVolumes table with
  | nil => exact absurd hvols (pyVolumes_ne_nil table hne)
  | cons v vs =>
    have hw' : w ∈ v :: vs := by
      rw [← hvols]
      exact (mem_pyVolumes table w).mpr hw
    have hsorted : (v :: vs).Sorted (· ≤ ·) := by
      rw [← hvols]
      exact pyVolumes_sorted table
    rw [hvols] at hless
    dsimp only at hless ⊢
    exact pyMinBy_first _ v vs hsorted w hw' hless

theorem filter_exact_head?_none (table : List ControlRecord) (volume : Int)
    (sec : String) (hmiss : volume ∉ table.map (fun r => r.no)) :
    (table.filter fun t => t.no == volume && t.sec == sec).head? = none := by
  rw [List.head?_eq_none_iff, List.filter_eq_nil_iff]
  intro t ht hcontr
  rw [Bool.and_eq_true, beq_iff_eq, beq_iff_eq] at hcontr
  exact hmiss (List.mem_map.mpr ⟨t, ht, hcontr.1⟩)

theorem filter_volume_head?_none (table : List ControlRecord) (volume : Int)
    (hmiss : volume ∉ table.map (fun r => r.no)) :
    (table.filter fun t => t.no == volume).head? = none := by
  rw [List.head?_eq_none_iff, List.filter_eq_nil_iff]
  intro t ht hcontr
  rw [beq_iff_eq] at hcontr
  exact hmiss (List.mem_map.mpr ⟨t, ht, hcontr⟩)

/-- When the requested volume is absent and the table is non-empty, the
lookup lands in the nearest-volume branch: it returns level 2 with the
volume `pyNearest table volume` and the first record of that volume. -/
theorem resolveContext_nearest (table : List ControlRecord) (volume : Int)
    (sec : String) (hne : table ≠ [])
    (hmiss : volume ∉ table.map (fun r => r.no)) :
    ∃ r, (table.filter fun t => t.no == pyNearest table volume).head? = some r ∧
      resolveContext table volume sec = some ⟨r, 2, pyNearest table volume, r.sec⟩ := by
  obtain ⟨r, hr⟩ :=
    filter_no_head?_some table (pyNearest table volume) (pyNearest_mem table volume hne)
  refine ⟨r, hr, ?_⟩
  unfold resolveContext
  rw [filter_exact_head?_none table volume sec hmiss,
    filter_volume_head?_none table volume hmiss]
  cases hvols : pyVolumes table with
  | nil => exact absurd hvols (pyVolumes_ne_nil table hne)
  | cons v vs =>
    dsimp only
    have hnear : pyNearest table volume = pyMinBy (fun x => (x - volume).natAbs) v vs := by
      unfold pyNearest
      rw [hvols]
    rw [← hnear, hr]

/-- C3: for every task whose volume appears nowhere in a non-empty
control table, the resolver reports fallback level 2 and resolves
against a table volume of minimum absolute distance to the requested
one, taking the first record of that volume in table order. -/
theorem c3_nearest_volume (table : List ControlRecord) (volume : Int)
    (sec : String) (hne : table ≠ [])
    (hmiss : volume ∉ table.map (fun r => r.no)) :
    ∃ res, resolveContext table volume sec = some res ∧
      res.usedFallbackLevel = 2 ∧
      res.actualVolumeUsed ∈ table.map (fun r => r.no) ∧
      (∀ v ∈ table.map (fun r => r.no),
        (res.actualVolumeUsed - volume).natAbs ≤ (v - volume).natAbs) ∧
      (table.filter fun t => t.no == res.actualVolumeUsed).head? = some res.record := by
  obtain ⟨r, hr, hresolve⟩ := resolveContext_nearest table volume sec hne hmiss
  exact ⟨⟨r, 2, pyNearest table volume, r.sec⟩, hresolve, rfl,
    pyNearest_mem table volume hne, pyNearest_min table volume hne, hr⟩

theorem c3_nearest_volume_witness :
    ∃ res, resolveContext [⟨5, "a", some "bar"⟩] 2 "z" = some res ∧
      res.usedFallbackLevel = 2 ∧
      res.actualVolumeUsed ∈ [ControlRecord.mk 5 "a" (some "bar")].map (fun r => r.no) ∧
      (∀ v ∈ [ControlRecord.mk 5 "a" (some "bar")].map (fun r => r.no),
        (res.actualVolumeUsed - 2).natAbs ≤ (v - 2).natAbs) ∧
      ([ControlRecord.mk 5 "a" (some "bar")].filter
        fun t => t.no == res.actualVolumeUsed).head? = some res.record :=
  c3_nearest_volume [⟨5, "a", some "bar"⟩] 2 "z" (by decide) (by decide)

/-- C9: when two distinct table volumes are equally (and minimally)
distant from the requested absent volume, the resolver picks the
numerically smaller one — the distinct volumes are sorted ascending and
Python's `min` returns the first minimal element. -/
theorem c9_tie_prefers_smaller_volume (table : List ControlRecord)
    (volume : Int) (sec : String) (v1 v2 : Int)
    (hne : table ≠ []) (hmiss : volume ∉ table.map (fun r => r.no))
    (h1 : v1 ∈ table.map (fun r => r.no)) (h2 : v2 ∈ table.map (fun r => r.no))
    (hlt : v1 < v2)
    (heq : (v1 - volume).natAbs = (v2 - volume).natAbs)
    (hmin : ∀ v ∈ table.map (fun r => r.no),
      (v1 - volume).natAbs ≤ (v - volume).natAbs) :
    ∃ res, resolveContext table volume sec = some res ∧
      res.actualVolumeUsed = v1 := by
  obtain ⟨r, _, hresolve⟩ := resolveContext_nearest table volume sec hne hmiss
  refine ⟨⟨r, 2, pyNearest table volume, r.sec⟩, hresolve, ?_⟩
  show pyNearest table volume = v1
  have ha : (pyNearest table volume - volume).natAbs ≤ (v1 - volume).natAbs :=
    pyNearest_min table volume hne v1 h1
  have hb : (v1 - volume).natAbs ≤ (pyNearest table volume - volume).natAbs :=
    hmin (pyNearest table volume) (pyNearest_mem table volume hne)
  have hc : pyNearest table volume ≤ v1 :=
    pyNearest_first table volume hne v1 h1 hb
  omega

theorem c9_tie_prefers_smaller_volume_witness :
    ∃ res, resolveContext [⟨3, "a", some "p"⟩, ⟨7, "b", some "q"⟩] 5 "z" = some res ∧
      res.actualVolumeUsed = 3 :=
  c9_tie_prefers_smaller_volume [⟨3, "a", some "p"⟩, ⟨7, "b", some "q"⟩] 5 "z" 3 7
    (by decide) (by decide) (by decide) (by decide) (by decide) (by decide) (by decide)

/-- C4 evidence: with a one-token-per-character tokenizer, template
`context ++ term`, `maxTokens = 10` and a 15-character term, the base
prompt alone takes 15 tokens (> 10), yet the task is NOT flagged or
skipped: the budgeter silently applies the negative slice bound
(`ids[:-5]`, keeping the first 15 of the 20 context tokens) and the
task proceeds to the generation call with a prompt far above the
budget. No PromptTooLong outcome exists anywhere in the code. -/
theorem c4_base_prompt_overflow_not_flagged :
    ((charEncode ("" ++ "123456789012345")).length : Int) > 10 ∧
    serverProcessTask charEncode charDecode (fun c t => c ++ t) 10 (fun p => p)
        [⟨1, "a", some "abcdefghijklmnopqrst"⟩] 1 "a" "123456789012345" =
      Except.ok (some ⟨1, "a", "123456789012345", "abcdefghijklmno123456789012345"⟩) := by
  constructor
  · decide
  · rfl

/-- C10: in the batch-server variant, every produced output record
carries the STRIPPED term (leading 治療 removed, else a leading 治
removed) as its original-text column, and the translated text is the
generation service applied to the prompt built from that stripped term
and the (possibly truncated) resolved context. -/
theorem c10_stripped_term_used (encode : String → List Nat)
    (decode : List Nat → String) (template : String → String → String)
    (maxTokens : Int) (generate : String → String) (table : List ControlRecord)
    (volume : Int) (sec term0 : String) (rec : TranslationRecord)
    (hrec : serverProcessTask encode decode template maxTokens generate table
      volume sec term0 = Except.ok (some rec)) :
    rec.originalText = stripTerm term0 ∧
    (strStartsWith term0 "治療" = true → stripTerm term0 = String.mk (term0.data.drop 2)) ∧
    (strStartsWith term0 "治療" = false → strStartsWith term0 "治" = true →
      stripTerm term0 = String.mk (term0.data.drop 1)) ∧
    ∃ ctx, rec.translatedText = generate (template
      (truncate_context_if_needed encode decode (fun t => template "" t)
        maxTokens ctx (stripTerm term0)) (stripTerm term0)) := by
  have key : rec.originalText = stripTerm term0 ∧
      ∃ ctx, rec.translatedText = generate (template
        (truncate_context_if_needed encode decode (fun t => template "" t)
          maxTokens ctx (stripTerm term0)) (stripTerm term0)) := by
    unfold serverProcessTask at hrec
    dsimp only at hrec
    split at hrec
    · exact absurd hrec (by simp)
    · split at hrec
      · exact absurd hrec (by simp)
      · exact absurd hrec (by simp)
      · rename_i res context_paragraph heq
        simp only [Except.ok.injEq, Option.some.injEq] at hrec
        rw [← hrec]
        exact ⟨rfl, ⟨context_paragraph, rfl⟩⟩
  refine ⟨key.1, ?_, ?_, key.2⟩
  · intro hsw
    have hne : term0.data ≠ [] := by
      intro he
      rw [strStartsWith, he] at hsw
      exact absurd hsw (by decide)
    unfold stripTerm
    rw [if_pos ⟨hne, hsw⟩]
  · intro hnsw hsw
    have hne : term0.data ≠ [] := by
      intro he
      rw [strStartsWith, he] at hsw
      exact absurd hsw (by decide)
    unfold stripTerm
    rw [if_neg (fun hc => by rw [hc.2] at hnsw; exact Bool.noConfusion hnsw),
      if_pos ⟨hne, hsw⟩]

theorem c10_stripped_term_used_witness :
    (⟨1, "a", "X", "ctx|X"⟩ : TranslationRecord).originalText = stripTerm "治療X" ∧
    (strStartsWith "治療X" "治療" = true →
      stripTerm "治療X" = String.mk ("治療X".data.drop 2)) ∧
    (strStartsWith "治療X" "治療" = false → strStartsWith "治療X" "治" = true →
      stripTerm "治療X" = String.mk ("治療X".data.drop 1)) ∧
    ∃ ctx, (⟨1, "a", "X", "ctx|X"⟩ : TranslationRecord).translatedText =
      (fun p => p) ((fun (c t : String) => c ++ "|" ++ t)
        (truncate_context_if_needed charEncode charDecode
          (fun t => (fun (c t : String) => c ++ "|" ++ t) "" t) 100 ctx
          (stripTerm "治療X")) (stripTerm "治療X")) :=
  c10_stripped_term_used charEncode charDecode (fun c t => c ++ "|" ++ t) 100
    (fun p => p) [⟨1, "a", some "ctx"⟩] 1 "a" "治療X" ⟨1, "a", "X", "ctx|X"⟩ (by rfl)
